import Mathlib

/-!
Shallow embedding of the AutoNP pipeline (src/autonp_engine.py and
src/utils/data_crawl.py).  Network responses (herb search, ingredient
queries, PubChem, SwissADME, SwissTargetPrediction) are supplied as
explicit oracle functions; pure data manipulation is translated directly.
-/

/-- Whitespace characters removed by Python str.strip (ASCII subset). -/
def pyIsSpace (c : Char) : Bool :=
  c == ' ' || c == '\t' || c == '\n' || c == '\r' || c == '\x0b' || c == '\x0c'

/-- Python str.strip: drop whitespace from both ends. -/
def pyStrip (s : String) : String :=
  String.mk (((s.data.dropWhile pyIsSpace).reverse.dropWhile pyIsSpace).reverse)

/-- Python str.lower restricted to ASCII letters (characterwise
lowercasing, as .str.lower() does on these cells). -/
def pyLower (s : String) : String :=
  String.mk (s.data.map Char.toLower)

/-- One record of the three-name JSON parsed by Tcmsp.fetch_herb_info
(herb_cn_name, herb_en_name, herb_pinyin), after the optional
exact_match_filter step. -/
structure ThreeNames where
  herb_cn_name : String
  herb_en_name : String
  herb_pinyin : String
deriving DecidableEq, Repr

/-- An entry of herb_info_list_all in Tcmsp.download_herbs_data.  Records
returned by the search carry no downloadable key, so the second loop reads
them as downloadable (dict.get default True); failure placeholders carry
downloadable = False. -/
structure TcmspHerbInfo where
  herb_cn_name : String
  herb_en_name : String
  herb_pinyin : String
  downloadable : Bool
deriving DecidableEq, Repr

/-- First loop of Tcmsp.download_herbs_data: strip each configured name,
skip blanks, and for each remaining name either extend herb_info_list_all
with the resolved records and append the name to success_herbs, or append
a downloadable := false placeholder and record the name in failure_herbs.
The resolver argument stands for fetch_herb_info (an empty result models
Python None or an empty list, both falsy).  Returns
(herb_info_list_all, success_herbs, failure_herbs). -/
def Tcmsp.collectHerbInfo (resolve : String → List ThreeNames) :
    List String → List TcmspHerbInfo × List String × List String
  | [] => ([], [], [])
  | name :: rest =>
    let r := Tcmsp.collectHerbInfo resolve rest
    let n := pyStrip name
    if n = "" then r
    else
      match resolve n with
      | [] => (⟨n, "", "", false⟩ :: r.1, r.2.1, n :: r.2.2)
      | i :: irest =>
        ((i :: irest).map (fun t =>
            ⟨t.herb_cn_name, t.herb_en_name, t.herb_pinyin, true⟩) ++ r.1,
         n :: r.2.1, r.2.2)

/-- The (success_herbs, failure_herbs) pair after Tcmsp.download_herbs_data:
with an empty token the method prints and returns at once, leaving both
lists empty; otherwise the collection loop populates them. -/
def Tcmsp.downloadLists (token : String) (resolve : String → List ThreeNames)
    (names : List String) : List String × List String :=
  if token = "" then ([], [])
  else ((Tcmsp.collectHerbInfo resolve names).2.1,
        (Tcmsp.collectHerbInfo resolve names).2.2)

/-- Five-name record built by HerbAC.__get_herb_info from the search API
response (the dict returned on a match; None is modelled by Option). -/
structure HerbacNames where
  herb_id : String
  herb_pinyin : String
  herb_cn_name : String
  herb_en_name : String
  herb_latin_name : String
deriving DecidableEq, Repr

/-- An entry of herb_info_list_all in HerbAC.download_herbs_data.  Resolved
records carry no downloadable key (read as downloadable); placeholders
carry downloadable = False. -/
structure HerbacHerbInfo where
  herb_id : String
  herb_pinyin : String
  herb_cn_name : String
  herb_en_name : String
  herb_latin_name : String
  downloadable : Bool
deriving DecidableEq, Repr

/-- HerbAC.is_chinese_char: code point between U+4E00 and U+9FFF inclusive. -/
def HerbAC.is_chinese_char (c : Char) : Bool :=
  decide ('一' ≤ c ∧ c ≤ '鿿')

/-- Guard at the top of the HerbAC.download_herbs_data collection loop:
a stripped name is processed only when nonempty and its first character is
Chinese; otherwise the loop continues without recording anything. -/
def HerbAC.nameEligible (n : String) : Bool :=
  match n.data with
  | [] => false
  | c :: _ => HerbAC.is_chinese_char c

/-- First loop of HerbAC.download_herbs_data: strip, skip blank or
non-Chinese names, then append either the resolved record and the name to
success_herbs, or a downloadable := false placeholder and the name to
failure_herbs. -/
def HerbAC.collectHerbInfo (get_herb_info : String → Option HerbacNames) :
    List String → List HerbacHerbInfo × List String × List String
  | [] => ([], [], [])
  | name :: rest =>
    let r := HerbAC.collectHerbInfo get_herb_info rest
    let n := pyStrip name
    if HerbAC.nameEligible n = false then r
    else
      match get_herb_info n with
      | some t =>
        (⟨t.herb_id, t.herb_pinyin, t.herb_cn_name, t.herb_en_name,
          t.herb_latin_name, true⟩ :: r.1, n :: r.2.1, r.2.2)
      | none => (⟨"", "", n, "", "", false⟩ :: r.1, r.2.1, n :: r.2.2)

/-- The (success_herbs, failure_herbs) pair populated by the collection
loop of HerbAC.download_herbs_data. -/
def HerbAC.downloadLists (get_herb_info : String → Option HerbacNames)
    (names : List String) : List String × List String :=
  ((HerbAC.collectHerbInfo get_herb_info names).2.1,
   (HerbAC.collectHerbInfo get_herb_info names).2.2)

/-- Second loop of Tcmsp.download_herbs_data, restricted to the file-name
selection it performs: it enumerates herb_info_list_all with a running
index and, for every entry whose downloadable flag is not false, reads
self.herb_names[index] as the name under which the herb's files are saved
(Python raises IndexError when the index is out of range, modelled by
none).  Entries with downloadable = false only log failure rows and do not
touch herb_names.  Returns the list of (selected save name, info) pairs. -/
def Tcmsp.saveNameSelection (names : List String) :
    Nat → List TcmspHerbInfo → Option (List (String × TcmspHerbInfo))
  | _, [] => some []
  | i, info :: rest =>
    if info.downloadable then
      match names.get? i with
      | some nm =>
        (Tcmsp.saveNameSelection names (i + 1) rest).map (fun l => (nm, info) :: l)
      | none => none
    else Tcmsp.saveNameSelection names (i + 1) rest

/-- Combined model of Tcmsp.download_herbs_data for the indexing claim:
collect herb info for the stripped names, then run the indexed second
loop over the collected list. -/
def Tcmsp.downloadRun (resolve : String → List ThreeNames)
    (names : List String) : Option (List (String × TcmspHerbInfo)) :=
  Tcmsp.saveNameSelection names 0 (Tcmsp.collectHerbInfo resolve names).1

/-- A row of the per-herb download-status table (the dict appended to
all_download_info by the HerbAC adapter). -/
structure DownloadInfo where
  cn_name : String
  en_name : String
  pinyin : String
  file_type : String
  status : String
  row_count : Nat
deriving DecidableEq, Repr

/-- HerbAC.load_herb_ingredient: query the ingredient rows for the
resolved herb id (the oracle stands for HerbAC.__get_herb_ingredients,
returning none when the response has no herb_ingredient data), save rows
1.. under the header row 0, and return a status dict.  When the query
yields no data the Python function returns None, modelled by none. -/
def HerbAC.load_herb_ingredient
    (get_herb_ingredients : String → Option (List (List String)))
    (info : HerbacHerbInfo) : Option DownloadInfo :=
  match get_herb_ingredients info.herb_id with
  | none => none
  | some ingredients =>
    if ingredients.isEmpty then none
    else
      let ingredients_status := !(ingredients.drop 1).isEmpty
      some ⟨info.herb_cn_name, info.herb_en_name, info.herb_pinyin,
            "ingredients", if ingredients_status then "成功" else "失败",
            ingredients.length⟩

/-- The three failure status rows appended for a non-downloadable entry. -/
def HerbAC.failureRows (info : HerbacHerbInfo) : List DownloadInfo :=
  ["ingredients", "targets", "diseases"].map
    (fun ft => ⟨info.herb_cn_name, info.herb_en_name, "", ft, "失败", 0⟩)

/-- Second loop of HerbAC.download_herbs_data: for each collected entry,
a non-downloadable placeholder appends three failure rows; otherwise the
result of load_herb_ingredient is appended and immediately subscripted
(download_info["下载状态"]).  When load_herb_ingredient returned None the
subscript raises TypeError, which aborts the whole loop; the abort is
modelled by Except.error. -/
def HerbAC.processHerbInfos
    (get_herb_ingredients : String → Option (List (List String))) :
    List HerbacHerbInfo → Except String (List DownloadInfo)
  | [] => Except.ok []
  | info :: rest =>
    if info.downloadable = false then
      (HerbAC.processHerbInfos get_herb_ingredients rest).map
        (fun l => HerbAC.failureRows info ++ l)
    else
      match HerbAC.load_herb_ingredient get_herb_ingredients info with
      | none =>
        Except.error "TypeError: NoneType object is not subscriptable"
      | some di =>
        (HerbAC.processHerbInfos get_herb_ingredients rest).map
          (fun l => di :: l)

/-- HerbAC.download_herbs_data end to end: collect herb info, then process
every collected entry; an aborted run (TypeError) yields Except.error and
no download-status table. -/
def HerbAC.download_herbs_data
    (get_herb_info : String → Option HerbacNames)
    (get_herb_ingredients : String → Option (List (List String)))
    (names : List String) : Except String (List DownloadInfo) :=
  HerbAC.processHerbInfos get_herb_ingredients
    (HerbAC.collectHerbInfo get_herb_info names).1

/-- A row of the merged HerbAC ingredient table reaching apply_filters
(after the PubChem-id coercion and the weight-extraction step of
predict_targets); Ingredient_weight_numeric is null when the leading
number regex found nothing. -/
structure HIngredientRow where
  herb : String
  ingredient_id : String
  ingredient_name : String
  ingredient_formula : String
  pubchem_id : Int
  ingredient_weight_numeric : Option ℚ
deriving DecidableEq, Repr

/-- A row of the PubChem compound table loaded by load_pubchem_compounds;
physchem fields may be absent (null), and a pandas comparison with null is
false. -/
structure PubchemCompound where
  cid : Int
  xlogp : Option ℚ
  hbonddonor : Option ℚ
  hbondacc : Option ℚ
  isosmiles : String
deriving DecidableEq, Repr

/-- Output row of apply_filters (the fixed column selection). -/
structure FilteredCompoundRow where
  herb : String
  ingredient_id : String
  ingredient_name : String
  ingredient_formula : String
  pubchem_id : Int
  isosmiles : String
deriving DecidableEq, Repr

/-- One guarded pandas filter step: with the threshold unset the table is
untouched; with a threshold, keep rows whose field is non-null and at most
the threshold (a null field compares false). -/
def leFilter {α : Type} (thr : Option ℚ) (field : α → Option ℚ)
    (l : List α) : List α :=
  match thr with
  | none => l
  | some t =>
    l.filter (fun r =>
      match field r with
      | some v => decide (v ≤ t)
      | none => false)

/-- The inner merge of apply_filters on PubChem_id = cid with the fixed
output column selection (isosmiles is contributed by the PubChem table). -/
def HerbAC.mergeOnCid (df : List HIngredientRow)
    (compounds : List PubchemCompound) : List FilteredCompoundRow :=
  df.flatMap (fun r =>
    (compounds.filter (fun c => c.cid == r.pubchem_id)).map
      (fun c => ⟨r.herb, r.ingredient_id, r.ingredient_name,
                 r.ingredient_formula, r.pubchem_id, c.isosmiles⟩))

/-- HerbAC.apply_filters: sequentially narrow the ingredient table by
molecular weight and the PubChem table by xlogp, hbonddonor and hbondacc
(each step skipped when its threshold is None), then inner-join on
PubChem_id = cid.  The PubChem table is passed explicitly (the Python
method fetches it from the network first). -/
def HerbAC.apply_filters (weight xlogp hbonddonor hbondacc : Option ℚ)
    (df : List HIngredientRow) (compounds : List PubchemCompound) :
    List FilteredCompoundRow :=
  let df1 := leFilter weight (fun r => r.ingredient_weight_numeric) df
  let c1 := leFilter xlogp (fun c => c.xlogp) compounds
  let c2 := leFilter hbonddonor (fun c => c.hbonddonor) c1
  let c3 := leFilter hbondacc (fun c => c.hbondacc) c2
  HerbAC.mergeOnCid df1 c3

/-- A row of the downloaded SwissADME result CSV (only the fields used by
load_swissadme). -/
structure AdmeRow where
  molecule : String
  canonical_smiles : String
  formula : String
  lipinski_violations : Int
  ghose_violations : Int
  veber_violations : Int
  egan_violations : Int
  muegge_violations : Int
  gi_absorption : String
deriving DecidableEq, Repr

/-- df[violation_columns].eq(0).sum(axis=1): how many of the five
rule-violation counts equal zero. -/
def zeroViolationCount (r : AdmeRow) : Nat :=
  ([r.lipinski_violations, r.ghose_violations, r.veber_violations,
    r.egan_violations, r.muegge_violations].filter (fun v => v == 0)).length

/-- Row filter and column selection of HerbAC.load_swissadme on the
downloaded CSV: keep rows with at least three zero violation counts whose
lowercased GI absorption equals "high", and emit
(Molecule, Canonical SMILES, Formula). -/
def HerbAC.load_swissadme (rows : List AdmeRow) :
    List (String × String × String) :=
  (rows.filter (fun r =>
      decide (3 ≤ zeroViolationCount r) && (pyLower r.gi_absorption == "high")))
    |>.map (fun r => (r.molecule, r.canonical_smiles, r.formula))

/-- A pandas DataFrame reduced to its column labels and string cells. -/
structure PredTable where
  cols : List String
  rows : List (List String)
deriving DecidableEq, Repr

/-- The eight hard-coded column labels of the empty success table in
SwissPredict.process_smiles_dataframe. -/
def swissFixedColumns : List String :=
  ["Target", "Common name", "Uniprot ID", "ChEMBL ID", "Target Class",
   "Probability*", "Known actives (3D/2D)", "Canonical SMILES"]

/-- Pandas column assignment df[col] = v: replace the column in place when
the label exists, otherwise append it. -/
def PredTable.assignColumn (t : PredTable) (col v : String) : PredTable :=
  match t.cols.indexOf? col with
  | some i => ⟨t.cols, t.rows.map (fun r => r.set i v)⟩
  | none => ⟨t.cols ++ [col], t.rows.map (fun r => r ++ [v])⟩

/-- Reindex one row of a table onto a combined column list (missing labels
become the string NaN, as pd.concat does). -/
def reindexRow (cols tcols : List String) (row : List String) :
    List String :=
  cols.map (fun c =>
    match tcols.indexOf? c with
    | some i => row.getD i "NaN"
    | none => "NaN")

/-- pd.concat(results, ignore_index=True): union of the column labels in
order of first appearance, rows reindexed onto it. -/
def concatTables (ts : List PredTable) : PredTable :=
  let cols := ts.foldl
    (fun acc t => acc ++ t.cols.filter (fun c => !(acc.contains c))) []
  ⟨cols, ts.foldr (fun t acc => t.rows.map (reindexRow cols t.cols) ++ acc) []⟩

/-- SwissPredict.process_smiles_dataframe.  The proxy pool fetched at the
start is passed explicitly: when it is empty the method prints and returns
(None, None), modelled by none.  The per-smiles outcome oracle stands for
the bounded retry loop around process_smiles (none means both attempts
failed, whatever the reason).  A successful result table gets the smiles
column assigned; failures are recorded as rows of the failure table with
the fixed message for max_retries = 2.  With no successful result the
success table is the hard-coded empty frame whose labels are the eight
fixed columns followed by the smiles column. -/
def SwissPredict.process_smiles_dataframe (proxies_list : List String)
    (outcome : String → Option PredTable) (smiles_column_name : String)
    (smiles_list : List String) : Option (PredTable × PredTable) :=
  if proxies_list.isEmpty then none
  else
    let results := smiles_list.filterMap (fun s =>
      (outcome s).map (fun t => t.assignColumn smiles_column_name s))
    let failed := (smiles_list.filter (fun s => (outcome s).isNone)).map
      (fun s => [s, "Failed after 2 attempts"])
    let success_df :=
      if results.isEmpty then
        ⟨swissFixedColumns ++ [smiles_column_name], []⟩
      else concatTables results
    let failure_df :=
      if failed.isEmpty then
        (⟨[smiles_column_name, "Error"], []⟩ : PredTable)
      else ⟨[smiles_column_name, "Error"], failed⟩
    some (success_df, failure_df)

/-- A raw row of a saved <herb>_ingredients.csv file from TCMSP, with the
ob and dl cells still strings. -/
structure RawIngredientRow where
  mol_id : String
  molecule_name : String
  ob : String
  dl : String
deriving DecidableEq, Repr

/-- The same row after pd.to_numeric(errors="coerce") on ob and dl:
a non-numeric cell becomes null. -/
structure IngredientRow where
  mol_id : String
  molecule_name : String
  ob : Option ℚ
  dl : Option ℚ
deriving DecidableEq, Repr

/-- Numeric coercion of one row (the to_numeric oracle stands for pandas'
string-to-number parser; it returns none exactly on non-numeric text). -/
def coerceRow (to_numeric : String → Option ℚ) (r : RawIngredientRow) :
    IngredientRow :=
  ⟨r.mol_id, r.molecule_name, to_numeric r.ob, to_numeric r.dl⟩

/-- Tcmsp.__read_ingredients_files on one herb's rows: coerce ob and dl,
then filter df[df["ob"] > self.ob] when the ob threshold is configured and
df[df["dl"] > self.dl] when the dl threshold is configured (a null cell
compares false and is dropped). -/
def Tcmsp.read_ingredients_filtered (to_numeric : String → Option ℚ)
    (ob_thr dl_thr : Option ℚ) (rows : List RawIngredientRow) :
    List IngredientRow :=
  let df := rows.map (coerceRow to_numeric)
  let df1 :=
    match ob_thr with
    | none => df
    | some t =>
      df.filter (fun r =>
        match r.ob with
        | some v => decide (t < v)
        | none => false)
  match dl_thr with
  | none => df1
  | some t =>
    df1.filter (fun r =>
      match r.dl with
      | some v => decide (t < v)
      | none => false)

/-- A selected row of the TCMSP match table (Herb, MOL_ID, Target_Name). -/
structure TcmspTargetRow where
  herb : String
  mol_id : String
  target_name : String
deriving DecidableEq, Repr

/-- A selected row of the HerbAC predict table (Herb, Ingredient_id,
Target). -/
structure HerbacTargetRow where
  herb : String
  ingredient_id : String
  target : String
deriving DecidableEq, Repr

/-- A row of the concatenated target table after the column renames in
AutoNP.match_gene (Herb, Compound_ID, Target_Name). -/
structure TargetRow where
  herb : String
  compound_id : String
  target_name : String
deriving DecidableEq, Repr

/-- A row of the uniprot reference table: the raw Protein names cell and
the Gene Names (primary) cell (null when absent). -/
structure UniprotRow where
  protein_names : String
  gene_primary : Option String
deriving DecidableEq, Repr

/-- A row of the final target_gene table. -/
structure GeneRow where
  herb : String
  compound_id : String
  target_name : String
  gene_symbol : Option String
deriving DecidableEq, Repr

/-- Keep the text before the first occurrence of sep (the [0] element of a
re.split on a fixed pattern): scan left to right and cut at the first
position where sep is a prefix of the remainder. -/
def prefixBeforeAux (sep : List Char) : List Char → List Char
  | [] => []
  | c :: rest =>
    if sep.isPrefixOf (c :: rest) then []
    else c :: prefixBeforeAux sep rest

/-- The Protein_names cleaning chain of AutoNP.match_gene:
.str.split(" \\(").str[0].str.split(", ").str[0], that is the text before
the first " (" and then the text before the first ", ". -/
def canonicalProteinName (s : String) : String :=
  String.mk (prefixBeforeAux ", ".data (prefixBeforeAux " (".data s.data))

/-- Left join of the concatenated target table against the uniprot table
on Target_Name = cleaned Protein_names, keeping the selected output
columns: a row with no match keeps a null Gene_Symbol, a row with matches
is repeated once per match. -/
def leftJoinGene (targets : List TargetRow) (uniprot : List UniprotRow) :
    List GeneRow :=
  targets.flatMap (fun t =>
    match uniprot.filter
        (fun u => canonicalProteinName u.protein_names == t.target_name) with
    | [] => [⟨t.herb, t.compound_id, t.target_name, none⟩]
    | u :: urest =>
      (u :: urest).map
        (fun v => ⟨t.herb, t.compound_id, t.target_name, v.gene_primary⟩))

/-- The sort key of the final sort_values(by=["Herb", "Compound_ID"]). -/
def geneKey (g : GeneRow) : String × String := (g.herb, g.compound_id)

/-- Lexicographic order on the (Herb, Compound_ID) sort key. -/
def geneLe (a b : GeneRow) : Prop :=
  a.herb < b.herb ∨ (a.herb = b.herb ∧ a.compound_id ≤ b.compound_id)

instance (a b : GeneRow) : Decidable (geneLe a b) :=
  inferInstanceAs (Decidable
    (a.herb < b.herb ∨ (a.herb = b.herb ∧ a.compound_id ≤ b.compound_id)))

instance : IsTotal GeneRow geneLe :=
  ⟨fun a b => by
    unfold geneLe
    rcases lt_trichotomy a.herb b.herb with h | h | h
    · exact Or.inl (Or.inl h)
    · rcases le_total a.compound_id b.compound_id with hc | hc
      · exact Or.inl (Or.inr ⟨h, hc⟩)
      · exact Or.inr (Or.inr ⟨h.symm, hc⟩)
    · exact Or.inr (Or.inl h)⟩

instance : IsTrans GeneRow geneLe :=
  ⟨fun a b c hab hbc => by
    unfold geneLe at *
    rcases hab with h1 | ⟨h1, h1c⟩
    · rcases hbc with h2 | ⟨h2, _⟩
      · exact Or.inl (h1.trans h2)
      · exact Or.inl (h2 ▸ h1)
    · rcases hbc with h2 | ⟨h2, h2c⟩
      · exact Or.inl (h1 ▸ h2)
      · exact Or.inr ⟨h1.trans h2, h1c.trans h2c⟩⟩

/-- AutoNP.match_gene on in-memory tables: select and rename the key
columns of both adapters' tables, concatenate them, left-join against the
cleaned uniprot table, and sort by (Herb, Compound_ID).  pandas
sort_values on several keys uses a stable lexicographic sort, modelled by
insertion sort with the non-strict key order. -/
def AutoNP.match_gene (tcmsp_target : List TcmspTargetRow)
    (herbac_target : List HerbacTargetRow)
    (uniprot_full_gene : List UniprotRow) : List GeneRow :=
  let tcmsp_selected := tcmsp_target.map
    (fun r => (⟨r.herb, r.mol_id, r.target_name⟩ : TargetRow))
  let herbac_selected := herbac_target.map
    (fun r => (⟨r.herb, r.ingredient_id, r.target⟩ : TargetRow))
  let tcmsp_herbac_target := tcmsp_selected ++ herbac_selected
  List.insertionSort geneLe (leftJoinGene tcmsp_herbac_target uniprot_full_gene)

/-- Demo TCMSP resolver: the sample herb resolves to one record,
everything else is unknown. -/
def demoResolveT : String → List ThreeNames := fun n =>
  if n = "人参" then [⟨"人参", "Panax Ginseng", "Ren Shen"⟩] else []

/-- Demo TCMSP resolver returning two candidate records for one name. -/
def demoResolveTwo : String → List ThreeNames := fun n =>
  if n = "人参" then
    [⟨"人参", "Panax Ginseng", "Ren Shen"⟩,
     ⟨"人参叶", "Ginseng Leaf", "Ren Shen Ye"⟩]
  else []

/-- Demo HerbAC search oracle: the sample herb resolves, everything else
is unknown. -/
def demoGetHerbInfo : String → Option HerbacNames := fun n =>
  if n = "人参" then
    some ⟨"HERB000001", "Ren Shen", "人参", "Ginseng", "Panax ginseng"⟩
  else none

/-- Demo HerbAC ingredient oracle with no data for any herb id. -/
def demoNoIngredients : String → Option (List (List String)) := fun _ => none

/-- Demo numeric coercion oracle for witnesses: parses the two sample
cells and fails on everything else (as pd.to_numeric with errors="coerce"
does on non-numeric text). -/
def demoToNumeric : String → Option ℚ := fun s =>
  if s = "30.5" then some (61 / 2) else if s = "1" then some 1 else none

/-- Demo SwissADME row passing the load_swissadme filter. -/
def demoAdmeRow : AdmeRow :=
  ⟨"mol1", "CCO", "C2H6O", 0, 0, 1, 0, 2, "High"⟩

/-- Demo merged-ingredient row for apply_filters witnesses. -/
def demoIngRow : HIngredientRow :=
  ⟨"人参", "HBIN001", "ginsenoside", "C30H52O2", 5, some 444⟩

/-- Demo PubChem compound row for apply_filters witnesses. -/
def demoCompound : PubchemCompound :=
  ⟨5, some 2, some 1, some 3, "CCO"⟩

/-- Specification of the text preceding the first occurrence of sep in l:
the result is a prefix of l, no occurrence of sep starts strictly inside
it, and it either is all of l (no occurrence at all) or is followed
immediately by an occurrence of sep. -/
def firstSegmentSpec (sep l result : List Char) : Prop :=
  (∃ t, result ++ t = l) ∧
    (∀ i, i < result.length → sep.isPrefixOf (l.drop i) = false) ∧
    (result = l ∨ sep.isPrefixOf (l.drop result.length) = true)

theorem tcmsp_collect_success_eq (resolve : String → List ThreeNames)
    (names : List String) :
    (Tcmsp.collectHerbInfo resolve names).2.1 =
      ((names.map pyStrip).filter (fun n => decide (n ≠ ""))).filter
        (fun n => !(resolve n).isEmpty) := by
  induction names with
  | nil => rfl
  | cons name rest ih =>
    simp only [Tcmsp.collectHerbInfo, List.map_cons, List.filter_cons]
    by_cases h : pyStrip name = ""
    · simp [h, ih]
    · cases hr : resolve (pyStrip name) <;>
        simp [h, hr, ih, List.isEmpty]

theorem tcmsp_collect_failure_eq (resolve : String → List ThreeNames)
    (names : List String) :
    (Tcmsp.collectHerbInfo resolve names).2.2 =
      ((names.map pyStrip).filter (fun n => decide (n ≠ ""))).filter
        (fun n => (resolve n).isEmpty) := by
  induction names with
  | nil => rfl
  | cons name rest ih =>
    simp only [Tcmsp.collectHerbInfo, List.map_cons, List.filter_cons]
    by_cases h : pyStrip name = ""
    · simp [h, ih]
    · cases hr : resolve (pyStrip name) <;>
        simp [h, hr, ih, List.isEmpty]

theorem herbac_collect_success_eq (get_herb_info : String → Option HerbacNames)
    (names : List String) :
    (HerbAC.collectHerbInfo get_herb_info names).2.1 =
      ((names.map pyStrip).filter (fun n => HerbAC.nameEligible n)).filter
        (fun n => (get_herb_info n).isSome) := by
  induction names with
  | nil => rfl
  | cons name rest ih =>
    simp only [HerbAC.collectHerbInfo, List.map_cons, List.filter_cons]
    cases h : HerbAC.nameEligible (pyStrip name)
    · simp [h, ih]
    · cases hr : get_herb_info (pyStrip name) <;>
        simp [h, hr, ih]

theorem herbac_collect_failure_eq (get_herb_info : String → Option HerbacNames)
    (names : List String) :
    (HerbAC.collectHerbInfo get_herb_info names).2.2 =
      ((names.map pyStrip).filter (fun n => HerbAC.nameEligible n)).filter
        (fun n => (get_herb_info n).isNone) := by
  induction names with
  | nil => rfl
  | cons name rest ih =>
    simp only [HerbAC.collectHerbInfo, List.map_cons, List.filter_cons]
    cases h : HerbAC.nameEligible (pyStrip name)
    · simp [h, ih]
    · cases hr : get_herb_info (pyStrip name) <;>
        simp [h, hr, ih]

theorem mem_filter_partition {α : Type} (p q : α → Bool)
    (hpq : ∀ x, p x = !(q x)) (l : List α) :
    (∀ x, x ∈ l.filter p → x ∉ l.filter q) ∧
      (∀ x, x ∈ l ↔ x ∈ l.filter p ∨ x ∈ l.filter q) := by
  constructor
  · intro x hp hq
    rw [List.mem_filter] at hp hq
    rw [hpq x] at hp
    rw [hq.2] at hp
    exact absurd hp.2 (by simp)
  · intro x
    constructor
    · intro hx
      rcases hq : q x with _ | _
      · exact Or.inl (List.mem_filter.mpr ⟨hx, by rw [hpq x, hq]; rfl⟩)
      · exact Or.inr (List.mem_filter.mpr ⟨hx, hq⟩)
    · rintro (h | h) <;> exact (List.mem_filter.mp h).1

theorem tcmsp_collect_infos_eq (resolve : String → List ThreeNames)
    (names : List String) :
    (Tcmsp.collectHerbInfo resolve names).1 =
      ((names.map pyStrip).filter (fun m => decide (m ≠ ""))).flatMap
        (fun m =>
          match resolve m with
          | [] => [⟨m, "", "", false⟩]
          | i :: irest =>
            (i :: irest).map (fun t =>
              ⟨t.herb_cn_name, t.herb_en_name, t.herb_pinyin, true⟩)) := by
  induction names with
  | nil => rfl
  | cons name rest ih =>
    simp only [Tcmsp.collectHerbInfo, List.map_cons, List.filter_cons]
    by_cases h : pyStrip name = ""
    · simp [h, ih]
    · cases hr : resolve (pyStrip name) <;> simp [h, hr, ih]

theorem herbac_collect_infos_eq (get_herb_info : String → Option HerbacNames)
    (names : List String) :
    (HerbAC.collectHerbInfo get_herb_info names).1 =
      ((names.map pyStrip).filter (fun m => HerbAC.nameEligible m)).map
        (fun m =>
          match get_herb_info m with
          | some t =>
            (⟨t.herb_id, t.herb_pinyin, t.herb_cn_name, t.herb_en_name,
              t.herb_latin_name, true⟩ : HerbacHerbInfo)
          | none => ⟨"", "", m, "", "", false⟩) := by
  induction names with
  | nil => rfl
  | cons name rest ih =>
    simp only [HerbAC.collectHerbInfo, List.map_cons, List.filter_cons]
    cases h : HerbAC.nameEligible (pyStrip name)
    · simp [h, ih]
    · cases hr : get_herb_info (pyStrip name) <;> simp [h, hr, ih]

/-- C1 (amended).  After download_herbs_data (with a usable TCMSP token),
each adapter's success_herbs and failure_herbs are exactly the stripped
herb names for which resolution succeeded resp. failed, they are disjoint,
and together they cover exactly the adapter's processed input: for TCMSP
the non-blank stripped names, for HerbAC only the non-blank stripped names
whose first character is Chinese (blank-or-non-Chinese names are skipped
into neither list, contrary to the claim as stated).  Every processed name
contributes to herb_info_list_all either its resolved record(s) or one
placeholder with downloadable = false. -/
theorem c1_resolution_partition (token : String)
    (resolveT : String → List ThreeNames)
    (get_herb_info : String → Option HerbacNames) (names : List String)
    (htok : token ≠ "") :
    ((Tcmsp.downloadLists token resolveT names).1 =
        ((names.map pyStrip).filter (fun m => decide (m ≠ ""))).filter
          (fun m => !(resolveT m).isEmpty) ∧
      (Tcmsp.downloadLists token resolveT names).2 =
        ((names.map pyStrip).filter (fun m => decide (m ≠ ""))).filter
          (fun m => (resolveT m).isEmpty) ∧
      (∀ n, n ∈ (Tcmsp.downloadLists token resolveT names).1 →
          n ∉ (Tcmsp.downloadLists token resolveT names).2) ∧
      (∀ n, n ∈ (names.map pyStrip).filter (fun m => decide (m ≠ "")) ↔
          n ∈ (Tcmsp.downloadLists token resolveT names).1 ∨
            n ∈ (Tcmsp.downloadLists token resolveT names).2) ∧
      (Tcmsp.collectHerbInfo resolveT names).1 =
        ((names.map pyStrip).filter (fun m => decide (m ≠ ""))).flatMap
          (fun m =>
            match resolveT m with
            | [] => [⟨m, "", "", false⟩]
            | i :: irest =>
              (i :: irest).map (fun t =>
                ⟨t.herb_cn_name, t.herb_en_name, t.herb_pinyin, true⟩))) ∧
    ((HerbAC.downloadLists get_herb_info names).1 =
        ((names.map pyStrip).filter (fun m => HerbAC.nameEligible m)).filter
          (fun m => (get_herb_info m).isSome) ∧
      (HerbAC.downloadLists get_herb_info names).2 =
        ((names.map pyStrip).filter (fun m => HerbAC.nameEligible m)).filter
          (fun m => (get_herb_info m).isNone) ∧
      (∀ n, n ∈ (HerbAC.downloadLists get_herb_info names).1 →
          n ∉ (HerbAC.downloadLists get_herb_info names).2) ∧
      (∀ n, n ∈ (names.map pyStrip).filter (fun m => HerbAC.nameEligible m) ↔
          n ∈ (HerbAC.downloadLists get_herb_info names).1 ∨
            n ∈ (HerbAC.downloadLists get_herb_info names).2) ∧
      (HerbAC.collectHerbInfo get_herb_info names).1 =
        ((names.map pyStrip).filter (fun m => HerbAC.nameEligible m)).map
          (fun m =>
            match get_herb_info m with
            | some t =>
              (⟨t.herb_id, t.herb_pinyin, t.herb_cn_name, t.herb_en_name,
                t.herb_latin_name, true⟩ : HerbacHerbInfo)
            | none => ⟨"", "", m, "", "", false⟩)) := by
  have hpqT : ∀ n : String,
      (fun m => !(resolveT m).isEmpty) n =
        !((fun m => (resolveT m).isEmpty) n) := fun n => rfl
  have hpqH : ∀ n : String,
      (fun m => (get_herb_info m).isSome) n =
        !((fun m => (get_herb_info m).isNone) n) := by
    intro n
    show (get_herb_info n).isSome = !(get_herb_info n).isNone
    cases get_herb_info n <;> rfl
  have hdisT := mem_filter_partition _ _ hpqT
    ((names.map pyStrip).filter (fun m => decide (m ≠ "")))
  have hdisH := mem_filter_partition _ _ hpqH
    ((names.map pyStrip).filter (fun m => HerbAC.nameEligible m))
  simp only [Tcmsp.downloadLists, if_neg htok, HerbAC.downloadLists]
  refine ⟨⟨tcmsp_collect_success_eq resolveT names,
      tcmsp_collect_failure_eq resolveT names, ?_, ?_,
      tcmsp_collect_infos_eq resolveT names⟩,
    ⟨herbac_collect_success_eq get_herb_info names,
      herbac_collect_failure_eq get_herb_info names, ?_, ?_,
      herbac_collect_infos_eq get_herb_info names⟩⟩
  · rw [tcmsp_collect_success_eq, tcmsp_collect_failure_eq]
    exact hdisT.1
  · rw [tcmsp_collect_success_eq, tcmsp_collect_failure_eq]
    exact hdisT.2
  · rw [herbac_collect_success_eq, herbac_collect_failure_eq]
    exact hdisH.1
  · rw [herbac_collect_success_eq, herbac_collect_failure_eq]
    exact hdisH.2

/-- C1 witness: on ["人参", " ", "Ginseng"] with the demo resolvers, TCMSP
partitions the two non-blank names into success ["人参"] and failure
["Ginseng"], and HerbAC processes only the Chinese name, succeeding on it. -/
theorem c1_resolution_partition_witness :
    Tcmsp.downloadLists "tok" demoResolveT ["人参", " ", "Ginseng"] =
        (["人参"], ["Ginseng"]) ∧
      HerbAC.downloadLists demoGetHerbInfo ["人参", " ", "Ginseng"] =
        (["人参"], []) := by
  have h := c1_resolution_partition "tok" demoResolveT demoGetHerbInfo
    ["人参", " ", "Ginseng"] (by decide)
  obtain ⟨⟨h1, h2, -, -, -⟩, ⟨h5, h6, -, -, -⟩⟩ := h
  constructor
  · rw [Prod.ext_iff]
    exact ⟨by rw [h1]; decide, by rw [h2]; decide⟩
  · rw [Prod.ext_iff]
    exact ⟨by rw [h5]; decide, by rw [h6]; decide⟩

/-- C1 counterexample: for the HerbAC adapter the claimed equality
"success_herbs union failure_herbs = input herb list minus blanks" fails:
"Ginseng" is a non-blank input name, yet after download_herbs_data it is
in neither list (non-Chinese names are skipped, not failed). -/
theorem c1_counterexample :
    "Ginseng" ∈ ((["Ginseng"].map pyStrip).filter (fun m => decide (m ≠ ""))) ∧
      HerbAC.downloadLists (fun _ => none) ["Ginseng"] = ([], []) := by
  decide

theorem get?_append_len {α : Type} (x : α) :
    ∀ (pre post : List α), (pre ++ x :: post).get? pre.length = some x := by
  intro pre
  induction pre with
  | nil => intro post; rfl
  | cons a pre ih => intro post; simpa using ih post

theorem Tcmsp.saveNameSelection_aligned (resolve : String → List ThreeNames) :
    ∀ (post pre : List String),
      (∀ n ∈ post, pyStrip n ≠ "") →
      (∀ n ∈ post, (resolve (pyStrip n)).length ≤ 1) →
      Tcmsp.saveNameSelection (pre ++ post) pre.length
          (Tcmsp.collectHerbInfo resolve post).1 =
        some (post.filterMap (fun nm =>
          match resolve (pyStrip nm) with
          | [t] => some (nm,
              (⟨t.herb_cn_name, t.herb_en_name, t.herb_pinyin, true⟩ :
                TcmspHerbInfo))
          | _ => none)) := by
  intro post
  induction post with
  | nil => intro pre _ _; rfl
  | cons nm rest ih =>
    intro pre hblank hsingle
    have hb : pyStrip nm ≠ "" := hblank nm (by simp)
    have hs : (resolve (pyStrip nm)).length ≤ 1 := hsingle nm (by simp)
    have hrest₁ : ∀ n ∈ rest, pyStrip n ≠ "" :=
      fun n hn => hblank n (by simp [hn])
    have hrest₂ : ∀ n ∈ rest, (resolve (pyStrip n)).length ≤ 1 :=
      fun n hn => hsingle n (by simp [hn])
    have ihs := ih (pre ++ [nm]) hrest₁ hrest₂
    rw [List.append_assoc, List.length_append] at ihs
    simp only [List.singleton_append, List.length_singleton] at ihs
    simp only [Tcmsp.collectHerbInfo, if_neg hb, List.filterMap_cons]
    cases hr : resolve (pyStrip nm) with
    | nil =>
      simp only [Tcmsp.saveNameSelection, Bool.false_eq_true, if_false]
      exact ihs
    | cons t ts =>
      cases ts with
      | nil =>
        simp only [List.map_cons, List.map_nil, List.cons_append,
          List.nil_append, Tcmsp.saveNameSelection, if_true]
        rw [show ([] : List TcmspHerbInfo).append
              (Tcmsp.collectHerbInfo resolve rest).1 =
            (Tcmsp.collectHerbInfo resolve rest).1 from rfl]
        rw [get?_append_len, ihs]
        rfl
      | cons t2 ts2 => simp [hr] at hs

/-- C10 (amended).  The save-name index of Tcmsp.download_herbs_data is
only correct on the aligned case: when no configured name is blank after
stripping and every resolution returns at most one record, the second
loop's index stays in bounds and each downloadable record is saved under
the very herb name whose resolution produced it.  (With a multi-record
resolution the index runs past herb_names — an IndexError — and a skipped
blank shifts the alignment, so the claim as stated fails; see the
counterexample.) -/
theorem c10_index_alignment (resolve : String → List ThreeNames)
    (names : List String)
    (hblank : ∀ n ∈ names, pyStrip n ≠ "")
    (hsingle : ∀ n ∈ names, (resolve (pyStrip n)).length ≤ 1) :
    Tcmsp.downloadRun resolve names =
      some (names.filterMap (fun nm =>
        match resolve (pyStrip nm) with
        | [t] => some (nm,
            (⟨t.herb_cn_name, t.herb_en_name, t.herb_pinyin, true⟩ :
              TcmspHerbInfo))
        | _ => none)) := by
  have h := Tcmsp.saveNameSelection_aligned resolve names [] hblank hsingle
  simpa [Tcmsp.downloadRun] using h

/-- C10 witness: one non-blank herb resolving to a single record is saved
under its own configured name. -/
theorem c10_index_alignment_witness :
    Tcmsp.downloadRun demoResolveT ["人参"] =
      some (["人参"].filterMap (fun nm =>
        match demoResolveT (pyStrip nm) with
        | [t] => some (nm,
            (⟨t.herb_cn_name, t.herb_en_name, t.herb_pinyin, true⟩ :
              TcmspHerbInfo))
        | _ => none)) :=
  c10_index_alignment demoResolveT ["人参"] (by decide) (by decide)

/-- C10 counterexample: when the single herb "人参" resolves to two
candidate records, herb_info_list_all has two entries while herb_names has
one, so the second loop reads herb_names[1] and fails (IndexError,
modelled by none) — the index does not stay within bounds. -/
theorem c10_counterexample :
    (Tcmsp.collectHerbInfo demoResolveTwo ["人参"]).1.length = 2 ∧
      Tcmsp.downloadRun demoResolveTwo ["人参"] = none := by
  decide

/-- C7.  Claim is right, code is wrong: for a resolved HerbAC herb whose
ingredient query returns no data, load_herb_ingredient returns None and
download_herbs_data immediately subscripts it, raising TypeError and
aborting the whole batch — here with herbs [丹参, 当归] where 丹参 has no
ingredient data, the run ends in the error and 当归 is never processed,
instead of a failure status row being recorded and the batch continuing. -/
theorem c7_missing_data_aborts_batch :
    HerbAC.download_herbs_data
        (fun n =>
          if n = "丹参" then
            some ⟨"HERB001", "Dan Shen", "丹参", "Danshen", "Salvia"⟩
          else if n = "当归" then
            some ⟨"HERB002", "Dang Gui", "当归", "Angelica", "Angelica"⟩
          else none)
        (fun hid =>
          if hid = "HERB002" then
            some [["Ingredient id", "Ingredient name"], ["HBIN001", "x"]]
          else none)
        ["丹参", "当归"] =
      Except.error "TypeError: NoneType object is not subscriptable" := by
  rfl

theorem flatMap_sublist_left {α β : Type} (f : α → List β)
    {l₁ l₂ : List α} (h : l₁.Sublist l₂) :
    (l₁.flatMap f).Sublist (l₂.flatMap f) := by
  induction h with
  | slnil => exact List.Sublist.refl _
  | cons a hsub ih =>
    simp only [List.flatMap_cons]
    exact ih.trans (List.sublist_append_right _ _)
  | cons₂ a hsub ih =>
    simp only [List.flatMap_cons]
    exact ih.append_left _

theorem flatMap_sublist_right {α β : Type} (l : List α) (f g : α → List β)
    (h : ∀ a, (f a).Sublist (g a)) :
    (l.flatMap f).Sublist (l.flatMap g) := by
  induction l with
  | nil => exact List.Sublist.refl _
  | cons a rest ih =>
    simp only [List.flatMap_cons]
    exact (h a).append ih

theorem leFilter_sublist {α : Type} (thr : Option ℚ) (field : α → Option ℚ)
    (l : List α) : (leFilter thr field l).Sublist l := by
  cases thr with
  | none => exact List.Sublist.refl _
  | some t => exact List.filter_sublist _

theorem leFilter_comm {α : Type} (t₁ t₂ : Option ℚ) (f g : α → Option ℚ)
    (l : List α) :
    leFilter t₁ f (leFilter t₂ g l) = leFilter t₂ g (leFilter t₁ f l) := by
  cases t₁ with
  | none => rfl
  | some a =>
    cases t₂ with
    | none => rfl
    | some b =>
      simp only [leFilter, List.filter_filter]
      exact List.filter_congr (fun x _ => Bool.and_comm _ _)

theorem mergeOnCid_sublist_left (compounds : List PubchemCompound)
    {df₁ df₂ : List HIngredientRow} (h : df₁.Sublist df₂) :
    (HerbAC.mergeOnCid df₁ compounds).Sublist
      (HerbAC.mergeOnCid df₂ compounds) :=
  flatMap_sublist_left _ h

theorem mergeOnCid_sublist_right (df : List HIngredientRow)
    {c₁ c₂ : List PubchemCompound} (h : c₁.Sublist c₂) :
    (HerbAC.mergeOnCid df c₁).Sublist (HerbAC.mergeOnCid df c₂) :=
  flatMap_sublist_right _ _ _ (fun _ => (h.filter _).map _)

/-- C2.  apply_filters with all four thresholds unset is exactly the
unfiltered inner join of the ingredient table and the PubChem table on
PubChem_id = cid restricted to the fixed output columns; with any single
threshold set the output is a sublist (hence a subset) of the unfiltered
join; and each threshold factors out independently — the result with a
threshold set equals the result with it unset on the correspondingly
pre-filtered table, so toggling one threshold acts only through its own
filter. -/
theorem c2_apply_filters (df : List HIngredientRow)
    (compounds : List PubchemCompound) :
    (HerbAC.apply_filters none none none none df compounds =
        HerbAC.mergeOnCid df compounds) ∧
      (∀ x, x ∈ HerbAC.mergeOnCid df compounds ↔
        ∃ r ∈ df, ∃ c ∈ compounds, c.cid = r.pubchem_id ∧
          x = ⟨r.herb, r.ingredient_id, r.ingredient_name,
               r.ingredient_formula, r.pubchem_id, c.isosmiles⟩) ∧
      (∀ w, (HerbAC.apply_filters (some w) none none none df compounds).Sublist
        (HerbAC.apply_filters none none none none df compounds)) ∧
      (∀ xl, (HerbAC.apply_filters none (some xl) none none df compounds).Sublist
        (HerbAC.apply_filters none none none none df compounds)) ∧
      (∀ hd, (HerbAC.apply_filters none none (some hd) none df compounds).Sublist
        (HerbAC.apply_filters none none none none df compounds)) ∧
      (∀ ha, (HerbAC.apply_filters none none none (some ha) df compounds).Sublist
        (HerbAC.apply_filters none none none none df compounds)) ∧
      (∀ w xl hd ha,
        HerbAC.apply_filters w xl hd ha df compounds =
            HerbAC.apply_filters none xl hd ha
              (leFilter w (fun r => r.ingredient_weight_numeric) df)
              compounds ∧
          HerbAC.apply_filters w xl hd ha df compounds =
            HerbAC.apply_filters w none hd ha df
              (leFilter xl (fun c => c.xlogp) compounds) ∧
          HerbAC.apply_filters w xl hd ha df compounds =
            HerbAC.apply_filters w xl none ha df
              (leFilter hd (fun c => c.hbonddonor) compounds) ∧
          HerbAC.apply_filters w xl hd ha df compounds =
            HerbAC.apply_filters w xl hd none df
              (leFilter ha (fun c => c.hbondacc) compounds)) := by
  refine ⟨rfl, ?_, ?_, ?_, ?_, ?_, ?_⟩
  · intro x
    simp only [HerbAC.mergeOnCid, List.mem_flatMap, List.mem_map,
      List.mem_filter, beq_iff_eq]
    constructor
    · rintro ⟨r, hr, c, ⟨hc, hcid⟩, rfl⟩
      exact ⟨r, hr, c, hc, hcid, rfl⟩

    · rintro ⟨r, hr, c, hc, hcid, rfl⟩
      exact ⟨r, hr, c, ⟨hc, hcid⟩, rfl⟩
  · intro w
    exact mergeOnCid_sublist_left compounds (leFilter_sublist _ _ _)
  · intro xl
    show (HerbAC.mergeOnCid df
        (leFilter (some xl) (fun c => c.xlogp) compounds)).Sublist
      (HerbAC.mergeOnCid df compounds)
    exact mergeOnCid_sublist_right df (leFilter_sublist _ _ _)
  · intro hd
    show (HerbAC.mergeOnCid df
        (leFilter (some hd) (fun c => c.hbonddonor) compounds)).Sublist
      (HerbAC.mergeOnCid df compounds)
    exact mergeOnCid_sublist_right df (leFilter_sublist _ _ _)
  · intro ha
    exact mergeOnCid_sublist_right df (leFilter_sublist _ _ _)
  · intro w xl hd ha
    refine ⟨rfl, rfl, ?_, ?_⟩
    · show HerbAC.mergeOnCid _
          (leFilter ha _ (leFilter hd _ (leFilter xl _ compounds))) =
        HerbAC.mergeOnCid _
          (leFilter ha _ (leFilter xl _ (leFilter hd _ compounds)))
      rw [leFilter_comm xl hd]
    · show HerbAC.mergeOnCid _
          (leFilter ha _ (leFilter hd _ (leFilter xl _ compounds))) =
        HerbAC.mergeOnCid _
          (leFilter hd _ (leFilter xl _ (leFilter ha _ compounds)))
      rw [leFilter_comm xl ha, leFilter_comm hd ha]

theorem optGt_pred_iff (t : ℚ) (o : Option ℚ) :
    ((match o with
      | some v => decide (t < v)
      | none => false) = true) ↔ ∃ v, o = some v ∧ t < v := by
  cases o <;> simp

theorem Tcmsp.read_ingredients_mem (to_numeric : String → Option ℚ)
    (ob_thr dl_thr : Option ℚ) (rows : List RawIngredientRow)
    (r : IngredientRow) :
    r ∈ Tcmsp.read_ingredients_filtered to_numeric ob_thr dl_thr rows ↔
      (r ∈ rows.map (coerceRow to_numeric) ∧
        (match ob_thr with
         | none => True
         | some t => ∃ v, r.ob = some v ∧ t < v) ∧
        (match dl_thr with
         | none => True
         | some t => ∃ v, r.dl = some v ∧ t < v)) := by
  cases ob_thr <;> cases dl_thr <;>
    simp [Tcmsp.read_ingredients_filtered, List.mem_filter, optGt_pred_iff,
      and_assoc]
  all_goals (intros; tauto)

/-- C5.  In the ingredient loading of Tcmsp.match_targets, the OB and DL
cells are numerically coerced (a non-numeric cell becomes null); with both
thresholds unconfigured no row is excluded (the output is exactly the
coerced input), a row is kept under a configured threshold exactly when
its coerced value exists and strictly exceeds the threshold, and under a
configured OB (resp. DL) threshold every surviving row has a non-null OB
(resp. DL) — so coercion failures are excluded by any active threshold. -/
theorem c5_ob_dl_coercion_filter (to_numeric : String → Option ℚ)
    (ob_thr dl_thr : Option ℚ) (rows : List RawIngredientRow) :
    (Tcmsp.read_ingredients_filtered to_numeric none none rows =
        rows.map (coerceRow to_numeric)) ∧
      (∀ r, r ∈ Tcmsp.read_ingredients_filtered to_numeric ob_thr dl_thr rows ↔
        (r ∈ rows.map (coerceRow to_numeric) ∧
          (match ob_thr with
           | none => True
           | some t => ∃ v, r.ob = some v ∧ t < v) ∧
          (match dl_thr with
           | none => True
           | some t => ∃ v, r.dl = some v ∧ t < v))) ∧
      (∀ t r,
        r ∈ Tcmsp.read_ingredients_filtered to_numeric (some t) dl_thr rows →
          r.ob ≠ none) ∧
      (∀ t r,
        r ∈ Tcmsp.read_ingredients_filtered to_numeric ob_thr (some t) rows →
          r.dl ≠ none) := by
  refine ⟨rfl, fun r => Tcmsp.read_ingredients_mem _ _ _ _ _, ?_, ?_⟩
  · intro t r hr
    obtain ⟨-, ⟨v, hv, -⟩, -⟩ :=
      (Tcmsp.read_ingredients_mem to_numeric (some t) dl_thr rows r).mp hr
    simp [hv]
  · intro t r hr
    obtain ⟨-, -, ⟨v, hv, -⟩⟩ :=
      (Tcmsp.read_ingredients_mem to_numeric ob_thr (some t) rows r).mp hr
    simp [hv]

/-- C5 witness: a row with OB cell "30.5" and DL cell "1" survives the
thresholds OB > 30, DL > 0, and its coerced OB is non-null. -/
theorem c5_witness :
    (⟨"M1", "g", some (61 / 2), some 1⟩ : IngredientRow).ob ≠ none :=
  (c5_ob_dl_coercion_filter demoToNumeric (some 30) (some 0)
      [⟨"M1", "g", "30.5", "1"⟩]).2.2.1 30
    ⟨"M1", "g", some (61 / 2), some 1⟩
    ((Tcmsp.read_ingredients_mem demoToNumeric (some 30) (some 0)
        [⟨"M1", "g", "30.5", "1"⟩] _).mpr
      ⟨by simp [coerceRow, demoToNumeric], ⟨61 / 2, rfl, by norm_num⟩,
        ⟨1, rfl, by norm_num⟩⟩)

/-- C6.  load_swissadme keeps exactly the downloaded rows with at least
three of the five rule-violation counts equal to zero and GI absorption
equal to "high" compared case-insensitively (the cell is lowercased before
comparison with "high"), and emits exactly the columns
(Molecule, Canonical SMILES, Formula). -/
theorem c6_swissadme_filter (rows : List AdmeRow) :
    ∀ x, x ∈ HerbAC.load_swissadme rows ↔
      ∃ r ∈ rows, 3 ≤ zeroViolationCount r ∧
        pyLower r.gi_absorption = "high" ∧
        x = (r.molecule, r.canonical_smiles, r.formula) := by
  intro x
  simp only [HerbAC.load_swissadme, List.mem_map, List.mem_filter,
    Bool.and_eq_true, decide_eq_true_eq, beq_iff_eq]
  constructor
  · rintro ⟨r, ⟨hr, hv, hg⟩, rfl⟩
    exact ⟨r, hr, hv, hg, rfl⟩
  · rintro ⟨r, hr, hv, hg, rfl⟩
    exact ⟨r, ⟨hr, hv, hg⟩, rfl⟩

/-- C6 witness: the demo row (three zero counts, GI absorption "High")
is kept and emitted with its three output columns. -/
theorem c6_witness :
    ("mol1", "CCO", "C2H6O") ∈ HerbAC.load_swissadme [demoAdmeRow] :=
  (c6_swissadme_filter [demoAdmeRow] ("mol1", "CCO", "C2H6O")).mpr
    ⟨demoAdmeRow, by decide, by decide, by decide, rfl⟩

/-- C3 (amended).  Provided the proxy pool fetched at the start of
process_smiles_dataframe is nonempty, the method returns a pair of tables
for every input: the failure table has exactly the columns
(smiles_column, Error) even with zero failures, and when no prediction
succeeds (in particular with zero input rows) the success table is the
hard-coded empty frame whose column labels are the eight fixed
target-prediction columns followed by the smiles column (so all eight
fixed columns are present).  With an empty proxy pool the method instead
returns (None, None) — see the counterexample. -/
theorem c3_swiss_schema (proxies_list : List String)
    (outcome : String → Option PredTable) (smiles_column_name : String)
    (smiles_list : List String) (hp : proxies_list ≠ []) :
    (SwissPredict.process_smiles_dataframe proxies_list outcome
        smiles_column_name smiles_list).isSome = true ∧
      (SwissPredict.process_smiles_dataframe proxies_list outcome
          smiles_column_name smiles_list).map (fun pr => pr.2.cols) =
        some [smiles_column_name, "Error"] ∧
      ((∀ s ∈ smiles_list, outcome s = none) →
        (SwissPredict.process_smiles_dataframe proxies_list outcome
            smiles_column_name smiles_list).map (fun pr => pr.1) =
          some ⟨swissFixedColumns ++ [smiles_column_name],
                ([] : List (List String))⟩) := by
  have hpe : proxies_list.isEmpty = false := by
    cases proxies_list with
    | nil => exact absurd rfl hp
    | cons a l => rfl
  have hres : ∀ l : List String, (∀ s ∈ l, outcome s = none) →
      l.filterMap (fun s =>
        (outcome s).map (fun t => t.assignColumn smiles_column_name s)) = [] := by
    intro l
    induction l with
    | nil => intro _; rfl
    | cons a r ih =>
      intro h
      simp [h a (by simp), ih (fun s hs => h s (by simp [hs]))]
  refine ⟨?_, ?_, ?_⟩
  · simp [SwissPredict.process_smiles_dataframe, hpe]
  · simp only [SwissPredict.process_smiles_dataframe, hpe,
      Bool.false_eq_true, if_false, Option.map_some]
    split <;> split <;> rfl
  · intro hall
    simp only [SwissPredict.process_smiles_dataframe, hpe,
      Bool.false_eq_true, if_false, Option.map_some, hres smiles_list hall,
      List.isEmpty_nil, if_true]
    rfl

/-- C3 witness: with a one-proxy pool, a single smiles string and an
always-failing outcome, the success table is the hard-coded empty frame
and the failure table has the two fixed columns. -/
theorem c3_swiss_schema_witness :
    (SwissPredict.process_smiles_dataframe ["proxy"] (fun _ => none)
        "Canonical SMILES" ["CC"]).map (fun pr => pr.1) =
      some ⟨swissFixedColumns ++ ["Canonical SMILES"],
            ([] : List (List String))⟩ ∧
    (SwissPredict.process_smiles_dataframe ["proxy"] (fun _ => none)
        "Canonical SMILES" ["CC"]).map (fun pr => pr.2.cols) =
      some ["Canonical SMILES", "Error"] := by
  have h := c3_swiss_schema ["proxy"] (fun _ => none) "Canonical SMILES"
    ["CC"] (by simp)
  exact ⟨h.2.2 (fun s _ => rfl), h.2.1⟩

/-- C3 counterexample: with an empty proxy pool the method does not return
a pair of tables at all — it returns (None, None), modelled by none — so
the claimed schema guarantee fails for that input environment. -/
theorem c3_counterexample :
    SwissPredict.process_smiles_dataframe [] (fun _ => none)
      "Canonical SMILES" ["CC"] = none := rfl

theorem prefixBeforeAux_spec (sep : List Char) :
    ∀ l : List Char, firstSegmentSpec sep l (prefixBeforeAux sep l) := by
  intro l
  induction l with
  | nil =>
    exact ⟨⟨[], rfl⟩, fun i hi => absurd hi (by simp [prefixBeforeAux]),
      Or.inl rfl⟩
  | cons c rest ih =>
    obtain ⟨⟨t, ht⟩, hocc, hend⟩ := ih
    cases hp : sep.isPrefixOf (c :: rest)
    · refine ⟨⟨t, ?_⟩, ?_, ?_⟩
      · simp only [prefixBeforeAux, hp, Bool.false_eq_true, if_false,
          List.cons_append, ht]
      · intro i hi
        simp only [prefixBeforeAux, hp, Bool.false_eq_true, if_false,
          List.length_cons] at hi
        cases i with
        | zero => simpa using hp
        | succ j =>
          simp only [List.drop_succ_cons]
          exact hocc j (by omega)
      · simp only [prefixBeforeAux, hp, Bool.false_eq_true, if_false,
          List.length_cons, List.drop_succ_cons]
        rcases hend with heq | hoc
        · exact Or.inl (by rw [heq])
        · exact Or.inr hoc
    · refine ⟨⟨c :: rest, ?_⟩, fun i hi => absurd hi (by simp [prefixBeforeAux, hp]), Or.inr ?_⟩
      · simp [prefixBeforeAux, hp]
      · simp only [prefixBeforeAux, hp, if_true, List.length_nil,
          List.drop_zero]

/-- C8.  Protein-name canonicalization: for every protein-names cell the
cleaned value is the text preceding the first " (" and, of the
", "-separated alternatives of that text, the first — each stage of the
chain satisfies the first-segment specification (it is a prefix, no
occurrence of the separator starts inside it, and it is either the whole
text or followed by an occurrence); in particular
"Prostaglandin G/H synthase 2 (COX-2), mitochondrial" cleans to
"Prostaglandin G/H synthase 2". -/
theorem c8_protein_canonicalization :
    (∀ s : String,
      firstSegmentSpec " (".data s.data (prefixBeforeAux " (".data s.data) ∧
        firstSegmentSpec ", ".data (prefixBeforeAux " (".data s.data)
          ((canonicalProteinName s).data)) ∧
      canonicalProteinName
          "Prostaglandin G/H synthase 2 (COX-2), mitochondrial" =
        "Prostaglandin G/H synthase 2" := by
  refine ⟨fun s => ⟨prefixBeforeAux_spec _ _, ?_⟩, by decide⟩
  show firstSegmentSpec ", ".data (prefixBeforeAux " (".data s.data)
    (prefixBeforeAux ", ".data (prefixBeforeAux " (".data s.data))
  exact prefixBeforeAux_spec _ _

/-- C8 witness: no occurrence of " (" starts at offset 3 of the sample
cell, an instance of the no-occurrence-inside-the-prefix guarantee. -/
theorem c8_witness :
    " (".data.isPrefixOf
        ("Prostaglandin G/H synthase 2 (COX-2), mitochondrial".data.drop 3) =
      false :=
  (c8_protein_canonicalization.1
      "Prostaglandin G/H synthase 2 (COX-2), mitochondrial").1.2.1 3
    (by decide)

theorem geneKey_ne_of_not_le {a b : GeneRow} (h : ¬ geneLe a b) :
    geneKey a ≠ geneKey b := by
  intro hk
  apply h
  have h1 : a.herb = b.herb := congrArg Prod.fst hk
  have h2 : a.compound_id = b.compound_id := congrArg Prod.snd hk
  exact Or.inr ⟨h1, le_of_eq h2⟩

theorem filter_orderedInsert_key (k : String × String) (a : GeneRow)
    (l : List GeneRow) :
    (List.orderedInsert geneLe a l).filter (fun g => decide (geneKey g = k)) =
      if geneKey a = k then
        a :: l.filter (fun g => decide (geneKey g = k))
      else l.filter (fun g => decide (geneKey g = k)) := by
  induction l with
  | nil =>
    by_cases h : geneKey a = k <;> simp [List.orderedInsert, h]
  | cons b rest ih =>
    simp only [List.orderedInsert]
    by_cases hle : geneLe a b
    · by_cases ha : geneKey a = k <;>
        simp [hle, List.filter_cons, ha]
    · have hne : geneKey a ≠ geneKey b := geneKey_ne_of_not_le hle
      by_cases hb : geneKey b = k
      · have ha : ¬ geneKey a = k := fun hak => hne (hak.trans hb.symm)
        simp [hle, List.filter_cons, hb, ha, ih]
      · by_cases ha : geneKey a = k <;>
          simp [hle, List.filter_cons, hb, ha, ih]

theorem filter_insertionSort_key (k : String × String) (l : List GeneRow) :
    (List.insertionSort geneLe l).filter (fun g => decide (geneKey g = k)) =
      l.filter (fun g => decide (geneKey g = k)) := by
  induction l with
  | nil => rfl
  | cons a rest ih =>
    simp only [List.insertionSort]
    rw [filter_orderedInsert_key]
    by_cases h : geneKey a = k <;> simp [h, ih, List.filter_cons]

/-- C9.  The final target_gene table of match_gene is the pre-sort left
join reordered: it is sorted ascending in the lexicographic
(Herb, Compound_ID) key, it is a permutation of the join output, and the
sort is stable — for every key value, the subsequence of rows carrying
that key is exactly the subsequence the join produced, in the same order
(pandas sort_values on several keys is a stable lexsort). -/
theorem c9_stable_sort (tcmsp_target : List TcmspTargetRow)
    (herbac_target : List HerbacTargetRow)
    (uniprot_full_gene : List UniprotRow) :
    List.Sorted geneLe
        (AutoNP.match_gene tcmsp_target herbac_target uniprot_full_gene) ∧
      (AutoNP.match_gene tcmsp_target herbac_target uniprot_full_gene).Perm
        (leftJoinGene
          (tcmsp_target.map
              (fun r => (⟨r.herb, r.mol_id, r.target_name⟩ : TargetRow)) ++
            herbac_target.map
              (fun r => (⟨r.herb, r.ingredient_id, r.target⟩ : TargetRow)))
          uniprot_full_gene) ∧
      (∀ k, (AutoNP.match_gene tcmsp_target herbac_target
            uniprot_full_gene).filter (fun g => decide (geneKey g = k)) =
        (leftJoinGene
            (tcmsp_target.map
                (fun r => (⟨r.herb, r.mol_id, r.target_name⟩ : TargetRow)) ++
              herbac_target.map
                (fun r => (⟨r.herb, r.ingredient_id, r.target⟩ : TargetRow)))
            uniprot_full_gene).filter (fun g => decide (geneKey g = k))) :=
  ⟨List.sorted_insertionSort geneLe _,
    List.perm_insertionSort geneLe _,
    fun k => filter_insertionSort_key k _⟩

/-- C9 witness: a two-row instance is emitted in sorted key order. -/
theorem c9_stable_sort_witness :
    List.Sorted geneLe
      (AutoNP.match_gene [⟨"b", "1", "t"⟩] [⟨"a", "2", "u"⟩] []) :=
  (c9_stable_sort [⟨"b", "1", "t"⟩] [⟨"a", "2", "u"⟩] []).1

/-- C4.  The gene-matching join is a left join: every row of the
concatenated target table appears in the output (with its Herb,
Compound_ID and Target_Name preserved), a target name matching no cleaned
protein name is kept with a null Gene_Symbol rather than dropped, the
output row count is at least the count of rows with a non-null
Gene_Symbol, and every output row's (Herb, Compound_ID) pair comes from
some row of the concatenated input. -/
theorem c4_left_join (tcmsp_target : List TcmspTargetRow)
    (herbac_target : List HerbacTargetRow)
    (uniprot_full_gene : List UniprotRow) :
    (∀ r ∈ tcmsp_target.map
          (fun r => (⟨r.herb, r.mol_id, r.target_name⟩ : TargetRow)) ++
        herbac_target.map
          (fun r => (⟨r.herb, r.ingredient_id, r.target⟩ : TargetRow)),
      ∃ g ∈ AutoNP.match_gene tcmsp_target herbac_target uniprot_full_gene,
        g.herb = r.herb ∧ g.compound_id = r.compound_id ∧
          g.target_name = r.target_name) ∧
    (∀ r ∈ tcmsp_target.map
          (fun r => (⟨r.herb, r.mol_id, r.target_name⟩ : TargetRow)) ++
        herbac_target.map
          (fun r => (⟨r.herb, r.ingredient_id, r.target⟩ : TargetRow)),
      (∀ u ∈ uniprot_full_gene,
          canonicalProteinName u.protein_names ≠ r.target_name) →
        (⟨r.herb, r.compound_id, r.target_name, none⟩ : GeneRow) ∈
          AutoNP.match_gene tcmsp_target herbac_target uniprot_full_gene) ∧
    ((AutoNP.match_gene tcmsp_target herbac_target
          uniprot_full_gene).filter (fun g => g.gene_symbol.isSome)).length ≤
      (AutoNP.match_gene tcmsp_target herbac_target uniprot_full_gene).length ∧
    (∀ g ∈ AutoNP.match_gene tcmsp_target herbac_target uniprot_full_gene,
      ∃ r ∈ tcmsp_target.map
            (fun r => (⟨r.herb, r.mol_id, r.target_name⟩ : TargetRow)) ++
          herbac_target.map
            (fun r => (⟨r.herb, r.ingredient_id, r.target⟩ : TargetRow)),
        r.herb = g.herb ∧ r.compound_id = g.compound_id) := by
  have hperm :
      (AutoNP.match_gene tcmsp_target herbac_target uniprot_full_gene).Perm
        (leftJoinGene
          (tcmsp_target.map
              (fun r => (⟨r.herb, r.mol_id, r.target_name⟩ : TargetRow)) ++
            herbac_target.map
              (fun r => (⟨r.herb, r.ingredient_id, r.target⟩ : TargetRow)))
          uniprot_full_gene) :=
    List.perm_insertionSort geneLe _
  refine ⟨?_, ?_, List.length_filter_le _ _, ?_⟩
  · intro r hr
    cases hms : uniprot_full_gene.filter
        (fun u => canonicalProteinName u.protein_names == r.target_name) with
    | nil =>
      refine ⟨⟨r.herb, r.compound_id, r.target_name, none⟩,
        hperm.mem_iff.mpr (List.mem_flatMap.mpr ⟨r, hr, ?_⟩), rfl, rfl, rfl⟩
      rw [leftJoinGene] at *
      rw [hms]
      simp
    | cons u us =>
      refine ⟨⟨r.herb, r.compound_id, r.target_name, u.gene_primary⟩,
        hperm.mem_iff.mpr (List.mem_flatMap.mpr ⟨r, hr, ?_⟩), rfl, rfl, rfl⟩
      rw [hms]
      simp
  · intro r hr hnone
    have hms : uniprot_full_gene.filter
        (fun u => canonicalProteinName u.protein_names == r.target_name) = [] := by
      rw [List.filter_eq_nil_iff]
      intro u hu
      simpa using hnone u hu
    refine hperm.mem_iff.mpr (List.mem_flatMap.mpr ⟨r, hr, ?_⟩)
    rw [hms]
    simp
  · intro g hg
    obtain ⟨r, hr, hbody⟩ := List.mem_flatMap.mp (hperm.mem_iff.mp hg)
    refine ⟨r, hr, ?_⟩
    revert hbody
    cases uniprot_full_gene.filter
        (fun u => canonicalProteinName u.protein_names == r.target_name) with
    | nil =>
      intro hbody
      rcases List.mem_singleton.mp hbody with rfl
      exact ⟨rfl, rfl⟩
    | cons u us =>
      intro hbody
      obtain ⟨v, -, rfl⟩ := List.mem_map.mp hbody
      exact ⟨rfl, rfl⟩

/-- C4 witness: a target row with no uniprot match survives into the
output with a null gene symbol. -/
theorem c4_left_join_witness :
    (⟨"h", "m", "t", none⟩ : GeneRow) ∈
      AutoNP.match_gene [⟨"h", "m", "t"⟩] [] [] :=
  (c4_left_join [⟨"h", "m", "t"⟩] [] []).2.1 ⟨"h", "m", "t"⟩ (by simp)
    (fun u hu => absurd hu (List.not_mem_nil u))

/-- C2 witness: the demo ingredient row joins its PubChem compound on
cid = PubChem_id and is emitted with the fixed output columns. -/
theorem c2_apply_filters_witness :
    (⟨"人参", "HBIN001", "ginsenoside", "C30H52O2", 5, "CCO"⟩ :
        FilteredCompoundRow) ∈
      HerbAC.mergeOnCid [demoIngRow] [demoCompound] :=
  ((c2_apply_filters [demoIngRow] [demoCompound]).2.1 _).mpr
    ⟨demoIngRow, by simp, demoCompound, by simp, rfl, rfl⟩
